import Mathlib

/-!
Verification of the `esp32_ble_controller` component
(`src/components/esp32_ble_controller/esp32_ble_controller.cpp`).

The development shallowly embeds the controller: the deferred-functions
queue, the component registries, the observer callback lists, the
operating-mode administration and the security/connection stack
callbacks.  Stateful C++ methods become pure functions on an explicit
`ControllerState`; machine integers become `Nat`/`Int` with explicit
`% 2 ^ 32` where wrap-around matters; logging, persistence writes,
restarts and value pushes become explicit event logs inside the state.
-/

/-! ### Association-list maps

The controller's `std::map`/`std::unordered_map` members
(`info_for_component`, `handler_for_component`) are embedded as
association lists: `mapPut` is `operator[]` in write position
(replace the entry if the key exists, otherwise append), `mapGet` is a
pure lookup.  `operator[]` in read position on a pointer-valued map
(which default-inserts a null pointer for a missing key) is embedded
directly at its use site in `update_component_state`. -/

def mapGet {β : Type} (m : List (String × β)) (k : String) : Option β :=
  match m with
  | [] => none
  | (k₀, v) :: rest => if k₀ = k then some v else mapGet rest k

def mapPut {β : Type} (m : List (String × β)) (k : String) (v : β) :
    List (String × β) :=
  match m with
  | [] => [(k, v)]
  | (k₀, v₀) :: rest =>
    if k₀ = k then (k₀, v) :: rest else (k₀, v₀) :: mapPut rest k v

def mapContains {β : Type} (m : List (String × β)) (k : String) : Bool :=
  (mapGet m k).isSome

/-! ### The deferred-functions queue

Modelled from the spec: the queue member `deferred_functions_for_loop`
is a `ThreadSafeBoundedQueue` declared in a header that is not part of
`src/`; per spec section 4.1 it is a bounded FIFO whose `push` appends
and returns `false` (dropping the item) when the queue is at capacity,
and whose `take` removes the oldest item, failing on an empty queue.
Cross-thread interleaving is modelled by explicit operation traces
(`QueueStep`/`runQueue`). -/

structure ThreadSafeBoundedQueue (α : Type) where
  items : List α
  capacity : Nat
deriving DecidableEq

def ThreadSafeBoundedQueue.push {α : Type} (q : ThreadSafeBoundedQueue α)
    (x : α) : Bool × ThreadSafeBoundedQueue α :=
  if q.items.length < q.capacity then (true, ⟨q.items ++ [x], q.capacity⟩)
  else (false, q)

def ThreadSafeBoundedQueue.take {α : Type} (q : ThreadSafeBoundedQueue α) :
    Option (α × ThreadSafeBoundedQueue α) :=
  match q.items with
  | [] => none
  | x :: rest => some (x, ⟨rest, q.capacity⟩)

/-- Push a batch of items, returning the sub-list that was accepted
(items rejected by a full queue are dropped, as in `push`). -/
def ThreadSafeBoundedQueue.pushAll {α : Type} (q : ThreadSafeBoundedQueue α) :
    List α → List α × ThreadSafeBoundedQueue α
  | [] => ([], q)
  | x :: xs =>
    let p := q.push x
    let r := p.2.pushAll xs
    (if p.1 then x :: r.1 else r.1, r.2)

/-- Result of draining the queue: the items executed, the items that
were accepted by re-entrant enqueues performed by executed items, and
the final queue. -/
structure DrainResult (α : Type) where
  executed : List α
  accepted : List α
  queue : ThreadSafeBoundedQueue α

/-- `ESP32BLEController::loop` as a drain relation on the bare queue:
repeatedly `take` the oldest item and invoke it; invoking an item `x`
may itself enqueue further items (`eff x`), which is how both
re-entrant producers and other-thread producers interleaving with the
drain are modelled.  `fuel` bounds the number of loop iterations
examined (the C++ `while` loop has no such bound; theorems state that
the loop only stops early on an empty queue). -/
def drainAll {α : Type} (eff : α → List α) :
    Nat → ThreadSafeBoundedQueue α → DrainResult α
  | 0, q => ⟨[], [], q⟩
  | fuel + 1, q =>
    match q.take with
    | none => ⟨[], [], q⟩
    | some (x, q₁) =>
      let pa := q₁.pushAll (eff x)
      let r := drainAll eff fuel pa.2
      ⟨x :: r.executed, pa.1 ++ r.accepted, r.queue⟩

/-- One abstract step against the queue: an enqueue
(`ESP32BLEController::execute_in_loop` from any producer thread) or a
drain pass (`ESP32BLEController::loop` on the loop thread). -/
inductive QueueStep (α : Type) where
  | enq (x : α)
  | drain (fuel : Nat)

/-- Accumulated history of a queue run: current queue, items invoked so
far, and items successfully enqueued so far (in acceptance order). -/
structure RunState (α : Type) where
  queue : ThreadSafeBoundedQueue α
  executed : List α
  accepted : List α

def queueStep {α : Type} (eff : α → List α) (s : RunState α) :
    QueueStep α → RunState α
  | .enq x =>
    let p := s.queue.push x
    ⟨p.2, s.executed, if p.1 then s.accepted ++ [x] else s.accepted⟩
  | .drain fuel =>
    let r := drainAll eff fuel s.queue
    ⟨r.queue, s.executed ++ r.executed, s.accepted ++ r.accepted⟩

def runQueue {α : Type} (eff : α → List α) (s : RunState α) :
    List (QueueStep α) → RunState α
  | [] => s
  | st :: rest => runQueue eff (queueStep eff s st) rest

/-! ### Passkey formatting

`ESP32BLEController::onPassKeyNotify` renders the 32-bit passkey with
`snprintf(pass_key_digits, 7, "%06d", pass_key)`: the `uint32_t`
argument is read back by `%d` as a 32-bit two's-complement `int`
(`int32_of_uint32`), rendered as a sign plus decimal digits with the
zero padding of `%06d` placed after the sign (`fmt06d`), and truncated
to the first 6 characters by the 7-byte buffer (`List.take 6`). -/

/-- Most-significant-first decimal digit characters of `n`; the first
argument is recursion fuel (always called with fuel `> n`, which
suffices since the value shrinks by a factor of 10 each step). -/
def decChars : Nat → Nat → List Char
  | 0, _ => []
  | fuel + 1, n =>
    if n < 10 then [Nat.digitChar n]
    else decChars fuel (n / 10) ++ [Nat.digitChar (n % 10)]

/-- Decimal representation of `n` as digit characters (`0` renders as
`"0"`), as produced by `printf`-style `%d` for non-negative values. -/
def decRepr (n : Nat) : List Char := decChars (n + 1) n

/-- Left-pad `s` with `c` up to width `w` (no-op if already wider). -/
def leftPad (w : Nat) (c : Char) (s : List Char) : List Char :=
  List.replicate (w - s.length) c ++ s

/-- `printf` rendering of a signed 32-bit value under format `%06d`:
minimum width 6, zero padding inserted after the minus sign. -/
def fmt06d (i : Int) : List Char :=
  if i < 0 then '-' :: leftPad 5 '0' (decRepr (-i).toNat)
  else leftPad 6 '0' (decRepr i.toNat)

/-- Reinterpretation of a `uint32_t` argument as the 32-bit
two's-complement `int` that `%d` reads from the varargs. -/
def int32_of_uint32 (n : Nat) : Int :=
  if n % 2 ^ 32 < 2 ^ 31 then ((n % 2 ^ 32 : Nat) : Int)
  else ((n % 2 ^ 32 : Nat) : Int) - 2 ^ 32

/-- Characters stored in `pass_key_digits` by
`snprintf(pass_key_digits, PASS_KEY_LENGTH + 1, "%06d", pass_key)`
(`PASS_KEY_LENGTH` is 6, so at most 6 characters are kept). -/
def passKeyChars (pass_key : Nat) : List Char :=
  (fmt06d (int32_of_uint32 pass_key)).take 6

/-- The `string pass_key_str` built from `pass_key_digits` in
`ESP32BLEController::onPassKeyNotify`. -/
def passKeyString (pass_key : Nat) : String :=
  String.mk (passKeyChars pass_key)

/-! ### Controller data model -/

/-- Descriptor stored by `ESP32BLEController::register_component`
(struct `BLECharacteristicInfoForHandler`: service UUID,
characteristic UUID, and whether a BLE2902 descriptor is used, i.e.
notification support). -/
structure BLECharacteristicInfoForHandler where
  service_UUID : String
  characteristic_UUID : String
  use_BLE2902 : Bool
deriving DecidableEq

/-- Modelled from the spec: the live `BLEComponentHandlerBase` objects
are produced by `BLEComponentHandlerFactory` (a source file outside
`src/`); per spec sections 3 and 4.2 a handler is bound to exactly one
component and one descriptor, so it is embedded as that pair. -/
structure HandlerState where
  component_id : String
  info : BLECharacteristicInfoForHandler
deriving DecidableEq

/-- An esphome `Nameable` component, reduced to the only feature the
controller uses: its stable `object_id` string. -/
structure Nameable where
  object_id : String
deriving DecidableEq

/-- A state value forwarded by `update_component_state` /
`send_value`.  The dispatch is generic over the value type (`bool`,
`float`, `std::string` in the source) and never inspects the value;
`float` is carried symbolically as a rational. -/
inductive BLEValue where
  | boolVal (b : Bool)
  | floatVal (x : Rat)
  | textVal (s : String)
deriving DecidableEq

/-- The zero-argument closures enqueued on `deferred_functions_for_loop`
by the stack-side callbacks, identified by their capture contents.
Each constructor corresponds to one lambda in the source. -/
inductive DeferredItem where
  | showPassKey (pass_key_str : String)
  | authComplete (success : Bool)
  | connected
  | disconnected
  | logPassKeyRequest
  | logSecurityRequest
  | logConfirmPIN
deriving DecidableEq

/-- One observer invocation, recording which registered callback
(by its position-independent identifier) was called with what
argument. -/
inductive Invocation where
  | showPassKey (observer : Nat) (pass_key_str : String)
  | authComplete (observer : Nat) (success : Bool)
  | connected (observer : Nat)
  | disconnected (observer : Nat)
deriving DecidableEq

/-- Values of `enum class BLEMaintenanceMode : uint8_t`.  Modelled from
the spec: the enum itself is declared in the header (outside `src/`);
the spec lists exactly three operating modes and the source treats
`BLE_ONLY` as the load-failure default and `WIFI_ONLY` as the largest
supported value (`set_ble_mode` rejects values above it). -/
def BLE_ONLY : Nat := 0

def MIXED : Nat := 1

def WIFI_ONLY : Nat := 2

/-- State of one `ESP32BLEController` instance, with explicit event
logs for the externally visible effects (observer invocations, value
pushes to BLE characteristics, log lines, persistence writes, restart
requests, scheduler timeouts). -/
structure ControllerState where
  info_for_component : List (String × BLECharacteristicInfoForHandler)
  handler_for_component : List (String × Option HandlerState)
  on_show_pass_key_callbacks : List Nat
  on_authentication_complete_callbacks : List Nat
  on_connected_callbacks : List Nat
  on_disconnected_callbacks : List Nat
  deferred_functions_for_loop : ThreadSafeBoundedQueue DeferredItem
  ble_mode : Nat
  invocations : List Invocation
  sends : List (String × BLEValue)
  log : List String
  saved_modes : List Nat
  reboot_requests : Nat
  scheduled_timeouts : List Nat
deriving DecidableEq

/-- A fresh controller: empty registries, empty callback lists, an
empty deferred queue (capacity left at a representative 16), no
recorded effects. -/
def initControllerState : ControllerState where
  info_for_component := []
  handler_for_component := []
  on_show_pass_key_callbacks := []
  on_authentication_complete_callbacks := []
  on_connected_callbacks := []
  on_disconnected_callbacks := []
  deferred_functions_for_loop := ⟨[], 16⟩
  ble_mode := BLE_ONLY
  invocations := []
  sends := []
  log := []
  saved_modes := []
  reboot_requests := 0
  scheduled_timeouts := []

/-! ### Controller operations (from the source) -/

/-- `ESP32BLEController::register_component`: store the descriptor for
the component's `object_id` (`std::map` `operator[]` assignment, so a
second registration overwrites the first). -/
def register_component (st : ControllerState) (component : Nameable)
    (serviceUUID : String) (characteristic_UUID : String)
    (use_BLE2902 : Bool) : ControllerState :=
  { st with
      info_for_component := mapPut st.info_for_component component.object_id
        ⟨serviceUUID, characteristic_UUID, use_BLE2902⟩ }

/-- `ESP32BLEController::add_on_show_pass_key_callback`. -/
def add_on_show_pass_key_callback (st : ControllerState) (c : Nat) :
    ControllerState :=
  { st with on_show_pass_key_callbacks := st.on_show_pass_key_callbacks ++ [c] }

/-- `ESP32BLEController::add_on_authentication_complete_callback`. -/
def add_on_authentication_complete_callback (st : ControllerState)
    (c : Nat) : ControllerState :=
  { st with
      on_authentication_complete_callbacks :=
        st.on_authentication_complete_callbacks ++ [c] }

/-- `ESP32BLEController::add_on_connected_callback`. -/
def add_on_connected_callback (st : ControllerState) (c : Nat) :
    ControllerState :=
  { st with on_connected_callbacks := st.on_connected_callbacks ++ [c] }

/-- `ESP32BLEController::add_on_disconnected_callback`. -/
def add_on_disconnected_callback (st : ControllerState) (c : Nat) :
    ControllerState :=
  { st with on_disconnected_callbacks := st.on_disconnected_callbacks ++ [c] }

/-- `ESP32BLEController::setup_ble_service_for_component`: if a
descriptor is registered for the component's `object_id`, create a
handler from it (via the factory) and store it in
`handler_for_component`; otherwise do nothing. -/
def setup_ble_service_for_component (st : ControllerState)
    (component : Nameable) : ControllerState :=
  match mapGet st.info_for_component component.object_id with
  | some info =>
    { st with
        handler_for_component := mapPut st.handler_for_component
          component.object_id (some ⟨component.object_id, info⟩) }
  | none => st

/-- `ESP32BLEController::setup_ble_services_for_components`: materialize
a handler for every candidate component. -/
def setup_ble_services_for_components (st : ControllerState)
    (components : List Nameable) : ControllerState :=
  components.foldl setup_ble_service_for_component st

/-- `ESP32BLEController::setup_ble_server_and_services`: components are
exposed only when the mode is not `WIFI_ONLY` (the maintenance-handler
setup touches only external BLE objects and is not modelled). -/
def setup_ble_server_and_services (st : ControllerState)
    (components : List Nameable) : ControllerState :=
  if st.ble_mode ≠ WIFI_ONLY then
    setup_ble_services_for_components st components
  else st

/-- `ESP32BLEController::initialize_ble_mode`: load the persisted mode
(`stored`, `none` when no stored value is available) and fall back to
`BLE_ONLY` on failure; nothing is written back. -/
def init_ble_mode (st : ControllerState) (stored : Option Nat) :
    ControllerState :=
  let mode := match stored with
    | some m => m
    | none => BLE_ONLY
  { st with ble_mode := mode, log := st.log ++ ["BLE mode: " ++ toString mode] }

/-- `ESP32BLEController::set_ble_mode(uint8_t)`: reject values above
`WIFI_ONLY` with a log line; otherwise, if the mode actually changes,
update it, persist it and request a reboot. -/
def set_ble_mode (st : ControllerState) (newMode : Nat) : ControllerState :=
  if WIFI_ONLY < newMode then
    { st with log := st.log ++ ["Ignoring unsupported BLE mode " ++ toString newMode] }
  else
    let st₁ := { st with log := st.log ++ ["Updating BLE mode to " ++ toString newMode] }
    if st₁.ble_mode ≠ newMode then
      { st₁ with
          ble_mode := newMode
          saved_modes := st₁.saved_modes ++ [newMode]
          reboot_requests := st₁.reboot_requests + 1 }
    else st₁

/-- `ESP32BLEController::update_component_state`: look the component's
handler up with `std::map` `operator[]` (which default-inserts a null
pointer when the key is absent) and forward the value only through a
non-null handler. -/
def update_component_state (st : ControllerState) (component : Nameable)
    (state : BLEValue) : ControllerState :=
  match mapGet st.handler_for_component component.object_id with
  | some (some _handler) =>
    { st with sends := st.sends ++ [(component.object_id, state)] }
  | some none => st
  | none =>
    { st with
        handler_for_component :=
          st.handler_for_component ++ [(component.object_id, none)] }

/-- `ESP32BLEController::execute_in_loop`: push the deferred function;
on failure only log "Deferred functions queue full" and drop it. -/
def execute_in_loop (st : ControllerState) (item : DeferredItem) :
    ControllerState :=
  let p := st.deferred_functions_for_loop.push item
  let st₁ := { st with deferred_functions_for_loop := p.2 }
  if p.1 then st₁
  else { st₁ with log := st₁.log ++ ["Deferred functions queue full"] }

/-- Invocation of one dequeued deferred function, each lambda from the
source: log its message and call the captured callback list in list
order (the esphome `CallbackManager` invokes callbacks in registration
order); the disconnect lambda additionally schedules the 500 ms
advertising restart on the application scheduler. -/
def runDeferredItem (st : ControllerState) : DeferredItem → ControllerState
  | .showPassKey s =>
    { st with
        log := st.log ++ ["BLE authentication - pass received"]
        invocations := st.invocations ++
          st.on_show_pass_key_callbacks.map (fun o => Invocation.showPassKey o s) }
  | .authComplete success =>
    { st with
        log := st.log ++
          [if success then "BLE authentication - completed succesfully"
           else "BLE authentication - failed"]
        invocations := st.invocations ++
          st.on_authentication_complete_callbacks.map
            (fun o => Invocation.authComplete o success) }
  | .connected =>
    { st with
        log := st.log ++ ["BLE server - connected"]
        invocations := st.invocations ++
          st.on_connected_callbacks.map Invocation.connected }
  | .disconnected =>
    { st with
        log := st.log ++ ["BLE server - disconnected"]
        scheduled_timeouts := st.scheduled_timeouts ++ [500]
        invocations := st.invocations ++
          st.on_disconnected_callbacks.map Invocation.disconnected }
  | .logPassKeyRequest => { st with log := st.log ++ ["onPassKeyRequest"] }
  | .logSecurityRequest => { st with log := st.log ++ ["onSecurityRequest"] }
  | .logConfirmPIN => { st with log := st.log ++ ["onConfirmPIN"] }

/-- Bounded unfolding of the `while (take(...)) { run(); }` body of
`ESP32BLEController::loop`. -/
def loopFuel : Nat → ControllerState → ControllerState
  | 0, st => st
  | fuel + 1, st =>
    match st.deferred_functions_for_loop.take with
    | none => st
    | some (x, q) =>
      loopFuel fuel (runDeferredItem { st with deferred_functions_for_loop := q } x)

/-- `ESP32BLEController::loop`: drain the deferred queue.  None of the
deferred functions in this translation unit re-enqueues through
`execute_in_loop` (`runDeferredItem` never touches the queue), so the
initial queue length bounds the iteration count exactly and the
`while` loop runs to an empty queue. -/
def loop (st : ControllerState) : ControllerState :=
  loopFuel st.deferred_functions_for_loop.items.length st

/-! ### Stack-side callbacks (from the source) -/

/-- `ESP32BLEController::onPassKeyNotify`: format the passkey and defer
the observer notification. -/
def onPassKeyNotify (st : ControllerState) (pass_key : Nat) :
    ControllerState :=
  execute_in_loop st (.showPassKey (passKeyString pass_key))

/-- `ESP32BLEController::onAuthenticationComplete`: defer delivery of
the boolean outcome. -/
def onAuthenticationComplete (st : ControllerState) (success : Bool) :
    ControllerState :=
  execute_in_loop st (.authComplete success)

/-- `ESP32BLEController::onPassKeyRequest`: return the fixed passkey
synchronously and defer only a log line. -/
def onPassKeyRequest (st : ControllerState) : Nat × ControllerState :=
  (123456, execute_in_loop st .logPassKeyRequest)

/-- `ESP32BLEController::onSecurityRequest`: accept synchronously and
defer only a log line. -/
def onSecurityRequest (st : ControllerState) : Bool × ControllerState :=
  (true, execute_in_loop st .logSecurityRequest)

/-- `ESP32BLEController::onConfirmPIN`: accept synchronously and defer
only a log line. -/
def onConfirmPIN (st : ControllerState) (_pin : Nat) : Bool × ControllerState :=
  (true, execute_in_loop st .logConfirmPIN)

/-- `ESP32BLEController::onConnect`: defer the connected
notification. -/
def onConnect (st : ControllerState) : ControllerState :=
  execute_in_loop st .connected

/-- `ESP32BLEController::onDisconnect`: defer the disconnected
notification (the 500 ms advertising restart is scheduled by the
deferred function itself, see `runDeferredItem`). -/
def onDisconnect (st : ControllerState) : ControllerState :=
  execute_in_loop st .disconnected

/-! ### Process-wide singleton -/

/-- Process state around `global_ble_controller`: the registered
instance (if any), the per-instance controller states (instances named
by `Nat`), and the error log. -/
structure SystemState where
  global_ble_controller : Option Nat
  controllers : Nat → ControllerState
  errors : List String

/-- The per-instance part of `ESP32BLEController::setup`: initialize
the mode from persistence, then create the server and materialize the
component services (the BLE-stack calls touch only external state). -/
def setupOwn (stored : Option Nat) (components : List Nameable)
    (st : ControllerState) : ControllerState :=
  setup_ble_server_and_services (init_ble_mode st stored) components

/-- `ESP32BLEController::setup` at process level: the instance updates
its own state; `global_ble_controller` is claimed only if it is still
null, otherwise "Already have an instance of the BLE controller" is
logged as an error and the first instance stays registered. -/
def setupSystem (stored : Option Nat) (components : List Nameable)
    (g : SystemState) (c : Nat) : SystemState where
  global_ble_controller :=
    match g.global_ble_controller with
    | none => some c
    | some c₀ => some c₀
  controllers := fun i =>
    if i = c then setupOwn stored components (g.controllers i)
    else g.controllers i
  errors :=
    match g.global_ble_controller with
    | none => g.errors
    | some _ => g.errors ++ ["Already have an instance of the BLE controller"]

theorem pushAll_items {α : Type} (xs : List α)
    (q : ThreadSafeBoundedQueue α) :
    (q.pushAll xs).2.items = q.items ++ (q.pushAll xs).1 := by
  induction xs generalizing q with
  | nil => simp [ThreadSafeBoundedQueue.pushAll]
  | cons x xs ih =>
    simp only [ThreadSafeBoundedQueue.pushAll]
    by_cases h : q.items.length < q.capacity
    · simp [ThreadSafeBoundedQueue.push, h, ih]
    · simp [ThreadSafeBoundedQueue.push, h, ih]

theorem push_capacity {α : Type} (q : ThreadSafeBoundedQueue α) (x : α) :
    (q.push x).2.capacity = q.capacity := by
  by_cases h : q.items.length < q.capacity <;>
    simp [ThreadSafeBoundedQueue.push, h]

theorem pushAll_capacity {α : Type} (xs : List α)
    (q : ThreadSafeBoundedQueue α) :
    (q.pushAll xs).2.capacity = q.capacity := by
  induction xs generalizing q with
  | nil => simp [ThreadSafeBoundedQueue.pushAll]
  | cons x xs ih =>
    simp only [ThreadSafeBoundedQueue.pushAll]
    rw [ih, push_capacity]

theorem push_length_le {α : Type} (q : ThreadSafeBoundedQueue α) (x : α)
    (h : q.items.length ≤ q.capacity) :
    (q.push x).2.items.length ≤ (q.push x).2.capacity := by
  by_cases hlt : q.items.length < q.capacity <;>
    simp [ThreadSafeBoundedQueue.push, hlt] <;> omega

theorem pushAll_length_le {α : Type} (xs : List α)
    (q : ThreadSafeBoundedQueue α) (h : q.items.length ≤ q.capacity) :
    (q.pushAll xs).2.items.length ≤ (q.pushAll xs).2.capacity := by
  induction xs generalizing q with
  | nil => simpa [ThreadSafeBoundedQueue.pushAll]
  | cons x xs ih =>
    simp only [ThreadSafeBoundedQueue.pushAll]
    exact ih _ (push_length_le q x h)

theorem drainAll_invariant {α : Type} (eff : α → List α) (fuel : Nat)
    (q : ThreadSafeBoundedQueue α) :
    (drainAll eff fuel q).executed ++ (drainAll eff fuel q).queue.items =
      q.items ++ (drainAll eff fuel q).accepted := by
  induction fuel generalizing q with
  | zero => simp [drainAll]
  | succ fuel ih =>
    match hq : q.items with
    | [] => simp [drainAll, ThreadSafeBoundedQueue.take, hq]
    | x :: rest =>
      simp only [drainAll, ThreadSafeBoundedQueue.take, hq]
      have hpa := pushAll_items (eff x) ⟨rest, q.capacity⟩
      have := ih (ThreadSafeBoundedQueue.pushAll ⟨rest, q.capacity⟩ (eff x)).2
      simp only [hpa] at this
      simp [this]

theorem drainAll_capacity {α : Type} (eff : α → List α) (fuel : Nat)
    (q : ThreadSafeBoundedQueue α) :
    (drainAll eff fuel q).queue.capacity = q.capacity := by
  induction fuel generalizing q with
  | zero => simp [drainAll]
  | succ fuel ih =>
    match hq : q.items with
    | [] => simp [drainAll, ThreadSafeBoundedQueue.take, hq]
    | x :: rest =>
      simp only [drainAll, ThreadSafeBoundedQueue.take, hq]
      rw [ih, pushAll_capacity]

theorem drainAll_length_le {α : Type} (eff : α → List α) (fuel : Nat)
    (q : ThreadSafeBoundedQueue α) (h : q.items.length ≤ q.capacity) :
    (drainAll eff fuel q).queue.items.length ≤
      (drainAll eff fuel q).queue.capacity := by
  induction fuel generalizing q with
  | zero => simpa [drainAll]
  | succ fuel ih =>
    match hq : q.items with
    | [] => simp [drainAll, ThreadSafeBoundedQueue.take, hq]
    | x :: rest =>
      simp only [drainAll, ThreadSafeBoundedQueue.take, hq]
      apply ih
      apply pushAll_length_le
      simp only [hq] at h
      simp at h ⊢
      omega

theorem drainAll_stops_only_when_empty {α : Type} (eff : α → List α)
    (fuel : Nat) (q : ThreadSafeBoundedQueue α)
    (h : (drainAll eff fuel q).queue.items ≠ []) :
    (drainAll eff fuel q).executed.length = fuel := by
  induction fuel generalizing q with
  | zero => simp [drainAll]
  | succ fuel ih =>
    match hq : q.items with
    | [] =>
      exfalso
      apply h
      simp [drainAll, ThreadSafeBoundedQueue.take, hq]
    | x :: rest =>
      simp only [drainAll, ThreadSafeBoundedQueue.take, hq] at h ⊢
      simp only [List.length_cons]
      rw [ih _ h]

theorem runQueue_invariant {α : Type} (eff : α → List α)
    (trace : List (QueueStep α)) (s : RunState α)
    (h : s.executed ++ s.queue.items = s.accepted) :
    (runQueue eff s trace).executed ++ (runQueue eff s trace).queue.items =
      (runQueue eff s trace).accepted := by
  induction trace generalizing s with
  | nil => simpa [runQueue]
  | cons st rest ih =>
    simp only [runQueue]
    apply ih
    match st with
    | .enq x =>
      by_cases hfull : s.queue.items.length < s.queue.capacity <;>
        simp [queueStep, ThreadSafeBoundedQueue.push, hfull, ← h]
    | .drain fuel =>
      have hd := drainAll_invariant eff fuel s.queue
      simp only [queueStep]
      rw [List.append_assoc, hd, ← List.append_assoc, h]

theorem runQueue_length_le {α : Type} (eff : α → List α)
    (trace : List (QueueStep α)) (s : RunState α)
    (h : s.queue.items.length ≤ s.queue.capacity) :
    (runQueue eff s trace).queue.items.length ≤
      (runQueue eff s trace).queue.capacity := by
  induction trace generalizing s with
  | nil => simpa [runQueue]
  | cons st rest ih =>
    simp only [runQueue]
    apply ih
    match st with
    | .enq x => exact push_length_le s.queue x h
    | .drain fuel => exact drainAll_length_le eff fuel s.queue h

theorem runQueue_capacity {α : Type} (eff : α → List α)
    (trace : List (QueueStep α)) (s : RunState α) :
    (runQueue eff s trace).queue.capacity = s.queue.capacity := by
  induction trace generalizing s with
  | nil => simp [runQueue]
  | cons st rest ih =>
    simp only [runQueue]
    rw [ih]
    match st with
    | .enq x => exact push_capacity s.queue x
    | .drain fuel => exact drainAll_capacity eff fuel s.queue

theorem mapGet_mapPut_self {β : Type} (m : List (String × β)) (k : String)
    (v : β) : mapGet (mapPut m k v) k = some v := by
  induction m with
  | nil => simp [mapPut, mapGet]
  | cons p rest ih =>
    obtain ⟨k₀, v₀⟩ := p
    by_cases h : k₀ = k <;> simp [mapPut, mapGet, h, ih]

theorem decChars_fuel (fuel n : Nat) (h : n < fuel) :
    decChars fuel n = decRepr n := by
  induction fuel using Nat.strong_induction_on generalizing n with
  | _ fuel ih =>
    cases fuel with
    | zero => omega
    | succ f =>
      by_cases h10 : n < 10
      · simp [decChars, decRepr, h10]
      · have hdiv : n / 10 < n := Nat.div_lt_self (by omega) (by omega)
        have h₁ : decChars f (n / 10) = decRepr (n / 10) := ih f (by omega) _ (by omega)
        have h₂ : decChars n (n / 10) = decRepr (n / 10) := ih n (by omega) _ (by omega)
        simp only [decChars, decRepr, if_neg h10]
        rw [h₁, h₂]

theorem decRepr_eq (n : Nat) :
    decRepr n = if n < 10 then [Nat.digitChar n]
      else decRepr (n / 10) ++ [Nat.digitChar (n % 10)] := by
  by_cases h10 : n < 10
  · simp [decRepr, decChars, h10]
  · have hdiv : n / 10 < n := Nat.div_lt_self (by omega) (by omega)
    simp only [decRepr, decChars, if_neg h10]
    rw [decChars_fuel n (n / 10) (by omega)]
    rfl

theorem decRepr_length_pos (n : Nat) : 1 ≤ (decRepr n).length := by
  rw [decRepr_eq]
  split <;> simp

theorem decRepr_length_le :
    ∀ k, 0 < k → ∀ n, n < 10 ^ k → (decRepr n).length ≤ k := by
  intro k
  induction k with
  | zero => omega
  | succ k ih =>
    intro _ n hn
    rw [decRepr_eq]
    by_cases h10 : n < 10
    · rw [if_pos h10]
      simp
    · rw [if_neg h10]
      have hk : 0 < k := by
        rcases Nat.eq_zero_or_pos k with hk0 | hk0
        · subst hk0; simp at hn; omega
        · exact hk0
      have hdiv : n / 10 < 10 ^ k := by
        rw [Nat.div_lt_iff_lt_mul (by omega)]
        calc n < 10 ^ (k + 1) := hn
          _ = 10 ^ k * 10 := by ring
      have := ih hk (n / 10) hdiv
      simp only [List.length_append, List.length_cons, List.length_nil]
      omega

theorem le_decRepr_length :
    ∀ k n, 10 ^ k ≤ n → k + 1 ≤ (decRepr n).length := by
  intro k
  induction k with
  | zero =>
    intro n _
    simpa using decRepr_length_pos n
  | succ k ih =>
    intro n hn
    have h10 : ¬ n < 10 := by
      have h1 : (10 : Nat) = 10 ^ 1 := by norm_num
      have : (10 : Nat) ≤ 10 ^ (k + 1) := by
        rw [h1]
        exact Nat.pow_le_pow_right (by omega) (by omega)
      omega
    rw [decRepr_eq, if_neg h10]
    have hdiv : 10 ^ k ≤ n / 10 := by
      rw [Nat.le_div_iff_mul_le (by omega)]
      calc 10 ^ k * 10 = 10 ^ (k + 1) := by ring
        _ ≤ n := hn
    have := ih (n / 10) hdiv
    simp only [List.length_append, List.length_cons, List.length_nil]
    omega

theorem runDeferredItem_queue (st : ControllerState) (x : DeferredItem) :
    (runDeferredItem st x).deferred_functions_for_loop =
      st.deferred_functions_for_loop := by
  cases x <;> simp [runDeferredItem]

theorem loopFuel_drains (fuel : Nat) :
    ∀ st : ControllerState,
      st.deferred_functions_for_loop.items.length ≤ fuel →
      (loopFuel fuel st).deferred_functions_for_loop.items = [] := by
  induction fuel with
  | zero =>
    intro st h
    simp only [Nat.le_zero, List.length_eq_zero] at h
    simpa [loopFuel]
  | succ fuel ih =>
    intro st h
    match hq : st.deferred_functions_for_loop.items with
    | [] => simp [loopFuel, ThreadSafeBoundedQueue.take, hq]
    | x :: rest =>
      simp only [loopFuel, ThreadSafeBoundedQueue.take, hq]
      apply ih
      rw [runDeferredItem_queue]
      simp only [hq, List.length_cons] at h
      simpa using Nat.le_of_succ_le_succ h

theorem loop_drains_queue (st : ControllerState) :
    (loop st).deferred_functions_for_loop.items = [] :=
  loopFuel_drains _ st (Nat.le_refl _)

theorem loop_singleton (st : ControllerState) (x : DeferredItem)
    (h : st.deferred_functions_for_loop.items = [x]) :
    loop st = runDeferredItem
      { st with deferred_functions_for_loop :=
          ⟨[], st.deferred_functions_for_loop.capacity⟩ } x := by
  simp [loop, h, loopFuel, ThreadSafeBoundedQueue.take]

theorem execute_in_loop_invocations (st : ControllerState)
    (item : DeferredItem) :
    (execute_in_loop st item).invocations = st.invocations := by
  by_cases h : st.deferred_functions_for_loop.items.length <
      st.deferred_functions_for_loop.capacity <;>
    simp [execute_in_loop, ThreadSafeBoundedQueue.push, h]

theorem execute_in_loop_items (st : ControllerState) (item : DeferredItem)
    (h : st.deferred_functions_for_loop.items.length <
      st.deferred_functions_for_loop.capacity) :
    (execute_in_loop st item).deferred_functions_for_loop.items =
      st.deferred_functions_for_loop.items ++ [item] := by
  simp [execute_in_loop, ThreadSafeBoundedQueue.push, h]

/-! ### Claims -/

/-- Claim C1: for every sequence of enqueue (`execute_in_loop`) and
drain (`loop`) steps against the deferred-functions queue, the items
invoked so far are exactly a prefix of the successfully enqueued items
in acceptance order, so every successfully enqueued item — including
items enqueued during a drain — is invoked exactly once and in FIFO
order (in particular per producer), once the queue has been drained
empty; and a drain pass only stops early on an empty queue (each of
its iterations removes and invokes the oldest item). -/
theorem deferred_queue_fifo_exactly_once
    (eff : Nat × Nat → List (Nat × Nat)) (cap : Nat)
    (trace : List (QueueStep (Nat × Nat))) :
    ((runQueue eff ⟨⟨[], cap⟩, [], []⟩ trace).executed ++
        (runQueue eff ⟨⟨[], cap⟩, [], []⟩ trace).queue.items =
      (runQueue eff ⟨⟨[], cap⟩, [], []⟩ trace).accepted) ∧
    ((runQueue eff ⟨⟨[], cap⟩, [], []⟩ trace).queue.items = [] →
      (runQueue eff ⟨⟨[], cap⟩, [], []⟩ trace).executed =
        (runQueue eff ⟨⟨[], cap⟩, [], []⟩ trace).accepted) ∧
    (∀ producer : Nat, ∃ pending,
      ((runQueue eff ⟨⟨[], cap⟩, [], []⟩ trace).executed.filter
          (fun i => i.1 = producer)) ++ pending =
        (runQueue eff ⟨⟨[], cap⟩, [], []⟩ trace).accepted.filter
          (fun i => i.1 = producer)) ∧
    (∀ (fuel : Nat) (q : ThreadSafeBoundedQueue (Nat × Nat)),
      (drainAll eff fuel q).queue.items ≠ [] →
      (drainAll eff fuel q).executed.length = fuel) := by
  have hinv := runQueue_invariant eff trace ⟨⟨[], cap⟩, [], []⟩ (by simp)
  refine ⟨hinv, ?_, ?_, ?_⟩
  · intro hempty
    rw [hempty] at hinv
    simpa using hinv
  · intro producer
    refine ⟨(runQueue eff ⟨⟨[], cap⟩, [], []⟩ trace).queue.items.filter
      (fun i => i.1 = producer), ?_⟩
    rw [← List.filter_append, hinv]
  · exact fun fuel q h => drainAll_stops_only_when_empty eff fuel q h

theorem deferred_queue_fifo_exactly_once_witness :
    ((runQueue (fun i => if i.2 = 0 then [(5, 9)] else [])
        ⟨⟨[], 3⟩, [], []⟩
        [QueueStep.enq (1, 0), QueueStep.enq (2, 7),
          QueueStep.drain 9]).executed =
      (runQueue (fun i => if i.2 = 0 then [(5, 9)] else [])
        ⟨⟨[], 3⟩, [], []⟩
        [QueueStep.enq (1, 0), QueueStep.enq (2, 7),
          QueueStep.drain 9]).accepted) ∧
    (drainAll (fun i => if i.2 = 0 then [(5, 9)] else []) 1
        ⟨[(1, 1), (2, 2)], 3⟩).executed.length = 1 :=
  ⟨(deferred_queue_fifo_exactly_once (fun i => if i.2 = 0 then [(5, 9)] else [])
      3 [QueueStep.enq (1, 0), QueueStep.enq (2, 7),
        QueueStep.drain 9]).2.1 (by decide),
    (deferred_queue_fifo_exactly_once (fun i => if i.2 = 0 then [(5, 9)] else [])
      3 []).2.2.2 1 ⟨[(1, 1), (2, 2)], 3⟩ (by decide)⟩

/-- Claim C2: the deferred-functions queue is bounded: pushing onto a
full queue fails without changing the queue (pure function, no
blocking), `execute_in_loop` then drops the rejected item with only a
log line and no other state change, and the occupied count never
exceeds the configured capacity over any sequence of enqueue and drain
operations. -/
theorem deferred_queue_bounded
    (q : ThreadSafeBoundedQueue DeferredItem) (item : DeferredItem)
    (st : ControllerState) :
    (q.capacity ≤ q.items.length → q.push item = (false, q)) ∧
    (st.deferred_functions_for_loop.capacity ≤
        st.deferred_functions_for_loop.items.length →
      execute_in_loop st item =
        { st with log := st.log ++ ["Deferred functions queue full"] }) ∧
    (∀ (eff : Nat × Nat → List (Nat × Nat)) (cap : Nat)
        (trace : List (QueueStep (Nat × Nat))),
      (runQueue eff ⟨⟨[], cap⟩, [], []⟩ trace).queue.items.length ≤ cap) := by
  refine ⟨?_, ?_, ?_⟩
  · intro hfull
    simp [ThreadSafeBoundedQueue.push, Nat.not_lt.mpr hfull]
  · intro hfull
    simp [execute_in_loop, ThreadSafeBoundedQueue.push, Nat.not_lt.mpr hfull]
  · intro eff cap trace
    have h := runQueue_length_le eff trace ⟨⟨[], cap⟩, [], []⟩ (by simp)
    rwa [runQueue_capacity] at h

theorem deferred_queue_bounded_witness :
    (ThreadSafeBoundedQueue.push ⟨[DeferredItem.connected], 1⟩
        DeferredItem.disconnected =
      (false, (⟨[DeferredItem.connected], 1⟩ :
        ThreadSafeBoundedQueue DeferredItem))) ∧
    execute_in_loop
        { initControllerState with
            deferred_functions_for_loop := ⟨[DeferredItem.connected], 1⟩ }
        DeferredItem.disconnected =
      { initControllerState with
          deferred_functions_for_loop := ⟨[DeferredItem.connected], 1⟩
          log := ["Deferred functions queue full"] } :=
  ⟨(deferred_queue_bounded ⟨[DeferredItem.connected], 1⟩
      DeferredItem.disconnected initControllerState).1 (by decide),
    (deferred_queue_bounded ⟨[DeferredItem.connected], 1⟩
      DeferredItem.disconnected
      { initControllerState with
          deferred_functions_for_loop := ⟨[DeferredItem.connected], 1⟩ }).2.1
      (by decide)⟩

/-- Claim C3: `set_ble_mode` with the current mode performs no
persistence write and requests no restart; with a different value in
the supported range it updates the in-memory mode, persists it and
requests exactly one restart; with an out-of-range value it logs a
rejection and changes neither the in-memory nor the persisted mode and
requests no restart; and the in-memory mode and the persisted value
change together or not at all. -/
theorem set_ble_mode_spec (st : ControllerState) (newMode : Nat) :
    (newMode ≤ WIFI_ONLY → newMode = st.ble_mode →
      (set_ble_mode st newMode).ble_mode = st.ble_mode ∧
      (set_ble_mode st newMode).saved_modes = st.saved_modes ∧
      (set_ble_mode st newMode).reboot_requests = st.reboot_requests) ∧
    (newMode ≤ WIFI_ONLY → newMode ≠ st.ble_mode →
      (set_ble_mode st newMode).ble_mode = newMode ∧
      (set_ble_mode st newMode).saved_modes = st.saved_modes ++ [newMode] ∧
      (set_ble_mode st newMode).reboot_requests = st.reboot_requests + 1) ∧
    (WIFI_ONLY < newMode →
      (set_ble_mode st newMode).ble_mode = st.ble_mode ∧
      (set_ble_mode st newMode).saved_modes = st.saved_modes ∧
      (set_ble_mode st newMode).reboot_requests = st.reboot_requests ∧
      (set_ble_mode st newMode).log = st.log ++
        ["Ignoring unsupported BLE mode " ++ toString newMode]) ∧
    ((set_ble_mode st newMode).ble_mode ≠ st.ble_mode ↔
      (set_ble_mode st newMode).saved_modes ≠ st.saved_modes) := by
  by_cases hrange : WIFI_ONLY < newMode
  · have hr : ¬ newMode ≤ WIFI_ONLY := Nat.not_le.mpr hrange
    have heq : set_ble_mode st newMode = { st with
        log := st.log ++ ["Ignoring unsupported BLE mode " ++ toString newMode] } := by
      simp [set_ble_mode, hrange]
    rw [heq]
    exact ⟨fun h => absurd h hr, fun h => absurd h hr,
      fun _ => ⟨rfl, rfl, rfl, rfl⟩, by simp⟩
  · by_cases hne : st.ble_mode = newMode
    · have heq : set_ble_mode st newMode = { st with
          log := st.log ++ ["Updating BLE mode to " ++ toString newMode] } := by
        simp [set_ble_mode, hrange, hne]
      rw [heq]
      exact ⟨fun _ _ => ⟨rfl, rfl, rfl⟩, fun _ h => absurd hne.symm h,
        fun h => absurd h hrange, by simp⟩
    · have heq : set_ble_mode st newMode = { st with
          ble_mode := newMode
          saved_modes := st.saved_modes ++ [newMode]
          reboot_requests := st.reboot_requests + 1
          log := st.log ++ ["Updating BLE mode to " ++ toString newMode] } := by
        simp [set_ble_mode, hrange, hne]
      rw [heq]
      refine ⟨fun _ h => absurd h.symm hne, fun _ _ => ⟨rfl, rfl, rfl⟩,
        fun h => absurd h hrange, ?_⟩
      constructor
      · intro _ hsv
        exact absurd (congrArg List.length hsv) (by simp)
      · intro _
        exact fun hbm => hne hbm.symm

theorem set_ble_mode_spec_witness :
    ((set_ble_mode initControllerState 1).ble_mode = 1 ∧
      (set_ble_mode initControllerState 1).saved_modes = [] ++ [1] ∧
      (set_ble_mode initControllerState 1).reboot_requests = 0 + 1) ∧
    ((set_ble_mode initControllerState 0).ble_mode = 0 ∧
      (set_ble_mode initControllerState 0).saved_modes = [] ∧
      (set_ble_mode initControllerState 0).reboot_requests = 0) ∧
    ((set_ble_mode initControllerState 7).ble_mode = 0 ∧
      (set_ble_mode initControllerState 7).saved_modes = [] ∧
      (set_ble_mode initControllerState 7).reboot_requests = 0 ∧
      (set_ble_mode initControllerState 7).log =
        [] ++ ["Ignoring unsupported BLE mode " ++ toString 7]) :=
  ⟨(set_ble_mode_spec initControllerState 1).2.1 (by decide) (by decide),
    (set_ble_mode_spec initControllerState 0).1 (by decide) (by decide),
    (set_ble_mode_spec initControllerState 7).2.2.1 (by decide)⟩

/-- Claim C4 (counterexample): publishing a state update for a
component with no entry in the handler registry is not free of state
change — the `std::map` `operator[]` lookup default-inserts a null
handler entry for the identifier, so the handler registry differs
afterwards. -/
theorem update_component_state_inserts_null_entry :
    (update_component_state initControllerState ⟨"kitchen_light"⟩
        (BLEValue.boolVal true)).handler_for_component ≠
      initControllerState.handler_for_component := by
  decide

/-- Claim C4 (amended): publishing a state update for a component
whose identifier has no entry in the handler registry sends nothing to
any endpoint and invokes no observer, and the only state change is
that the handler registry gains a null (default-inserted) entry for
that identifier; the call returns normally. -/
theorem update_component_state_unregistered_no_send
    (st : ControllerState) (component : Nameable) (value : BLEValue)
    (h : mapGet st.handler_for_component component.object_id = none) :
    (update_component_state st component value).sends = st.sends ∧
    (update_component_state st component value).invocations = st.invocations ∧
    update_component_state st component value =
      { st with handler_for_component :=
          st.handler_for_component ++ [(component.object_id, none)] } := by
  refine ⟨?_, ?_, ?_⟩ <;> simp [update_component_state, h]

theorem update_component_state_unregistered_no_send_witness :
    (update_component_state initControllerState ⟨"kitchen_light"⟩
        (BLEValue.boolVal true)).sends = initControllerState.sends ∧
    (update_component_state initControllerState ⟨"kitchen_light"⟩
        (BLEValue.boolVal true)).invocations =
      initControllerState.invocations ∧
    update_component_state initControllerState ⟨"kitchen_light"⟩
        (BLEValue.boolVal true) =
      { initControllerState with
          handler_for_component := [("kitchen_light", none)] } :=
  update_component_state_unregistered_no_send initControllerState
    ⟨"kitchen_light"⟩ (BLEValue.boolVal true) (by decide)

/-- Claim C5: the authentication-complete, connected and disconnected
stack callbacks never invoke an observer synchronously — they only
enqueue one deferred work item (when the queue is not full; the
invocation log is unchanged either way) — and the registered observers
are invoked only by the loop-thread drain (`loop`), in registration
order (callback registration appends, and the drained item maps over
the callback list in list order). -/
theorem stack_callbacks_defer_observer_invocation (success : Bool) (c : Nat) :
    (∀ st : ControllerState,
      (onAuthenticationComplete st success).invocations = st.invocations ∧
      (onConnect st).invocations = st.invocations ∧
      (onDisconnect st).invocations = st.invocations) ∧
    (∀ st : ControllerState,
      st.deferred_functions_for_loop.items.length <
          st.deferred_functions_for_loop.capacity →
      (onAuthenticationComplete st success).deferred_functions_for_loop.items =
        st.deferred_functions_for_loop.items ++
          [DeferredItem.authComplete success] ∧
      (onConnect st).deferred_functions_for_loop.items =
        st.deferred_functions_for_loop.items ++ [DeferredItem.connected] ∧
      (onDisconnect st).deferred_functions_for_loop.items =
        st.deferred_functions_for_loop.items ++ [DeferredItem.disconnected]) ∧
    (∀ st : ControllerState,
      st.deferred_functions_for_loop.items =
          [DeferredItem.authComplete success] →
      (loop st).invocations = st.invocations ++
        st.on_authentication_complete_callbacks.map
          (fun o => Invocation.authComplete o success)) ∧
    (∀ st : ControllerState,
      st.deferred_functions_for_loop.items = [DeferredItem.connected] →
      (loop st).invocations = st.invocations ++
        st.on_connected_callbacks.map Invocation.connected) ∧
    (∀ st : ControllerState,
      st.deferred_functions_for_loop.items = [DeferredItem.disconnected] →
      (loop st).invocations = st.invocations ++
        st.on_disconnected_callbacks.map Invocation.disconnected) ∧
    (∀ st : ControllerState,
      (add_on_authentication_complete_callback st
          c).on_authentication_complete_callbacks =
        st.on_authentication_complete_callbacks ++ [c] ∧
      (add_on_connected_callback st c).on_connected_callbacks =
        st.on_connected_callbacks ++ [c] ∧
      (add_on_disconnected_callback st c).on_disconnected_callbacks =
        st.on_disconnected_callbacks ++ [c]) := by
  refine ⟨?_, ?_, ?_, ?_, ?_, ?_⟩
  · intro st
    exact ⟨execute_in_loop_invocations st _, execute_in_loop_invocations st _,
      execute_in_loop_invocations st _⟩
  · intro st h
    exact ⟨execute_in_loop_items st _ h, execute_in_loop_items st _ h,
      execute_in_loop_items st _ h⟩
  · intro st h
    rw [loop_singleton st _ h]
    simp [runDeferredItem]
  · intro st h
    rw [loop_singleton st _ h]
    simp [runDeferredItem]
  · intro st h
    rw [loop_singleton st _ h]
    simp [runDeferredItem]
  · intro st
    exact ⟨rfl, rfl, rfl⟩

theorem stack_callbacks_defer_observer_invocation_witness :
    ((onConnect { initControllerState with
        on_connected_callbacks := [3, 1] }).deferred_functions_for_loop.items =
      [] ++ [DeferredItem.connected]) ∧
    (loop { initControllerState with
        deferred_functions_for_loop := ⟨[DeferredItem.connected], 16⟩
        on_connected_callbacks := [3, 1] }).invocations =
      [] ++ [3, 1].map Invocation.connected :=
  ⟨((stack_callbacks_defer_observer_invocation true 0).2.1
      { initControllerState with on_connected_callbacks := [3, 1] }
      (by decide)).2.1,
    (stack_callbacks_defer_observer_invocation true 0).2.2.2.1
      { initControllerState with
          deferred_functions_for_loop := ⟨[DeferredItem.connected], 16⟩
          on_connected_callbacks := [3, 1] }
      (by decide)⟩

/-- Claim C6: `onPassKeyNotify` formats the passkey as a fixed-width
6-digit zero-padded decimal string before deferring delivery: the
payload for 123456 is exactly "123456" and for 42 exactly "000042",
and the enqueued deferred item carries exactly that string. -/
theorem onPassKeyNotify_six_digit_payload :
    passKeyString 123456 = "123456" ∧ passKeyString 42 = "000042" ∧
    ∀ st : ControllerState,
      st.deferred_functions_for_loop.items.length <
          st.deferred_functions_for_loop.capacity →
      (onPassKeyNotify st 123456).deferred_functions_for_loop.items =
        st.deferred_functions_for_loop.items ++
          [DeferredItem.showPassKey "123456"] ∧
      (onPassKeyNotify st 42).deferred_functions_for_loop.items =
        st.deferred_functions_for_loop.items ++
          [DeferredItem.showPassKey "000042"] := by
  have h₁ : passKeyString 123456 = "123456" := by decide
  have h₂ : passKeyString 42 = "000042" := by decide
  refine ⟨h₁, h₂, fun st h => ⟨?_, ?_⟩⟩
  · have := execute_in_loop_items st
      (DeferredItem.showPassKey (passKeyString 123456)) h
    rwa [h₁] at this
  · have := execute_in_loop_items st
      (DeferredItem.showPassKey (passKeyString 42)) h
    rwa [h₂] at this

theorem onPassKeyNotify_six_digit_payload_witness :
    (onPassKeyNotify initControllerState 123456).deferred_functions_for_loop.items =
      [] ++ [DeferredItem.showPassKey "123456"] ∧
    (onPassKeyNotify initControllerState 42).deferred_functions_for_loop.items =
      [] ++ [DeferredItem.showPassKey "000042"] :=
  onPassKeyNotify_six_digit_payload.2.2 initControllerState (by decide)

/-- Claim C7: registering a descriptor twice for the same component
identifier silently overwrites the first registration, so after
handler materialization the handler for that component carries exactly
the second descriptor's service UUID, characteristic UUID and notify
flag. -/
theorem register_component_last_write_wins
    (st : ControllerState) (component : Nameable)
    (service₁ characteristic₁ : String) (ble2902₁ : Bool)
    (service₂ characteristic₂ : String) (ble2902₂ : Bool) :
    mapGet (setup_ble_service_for_component
        (register_component
          (register_component st component service₁ characteristic₁ ble2902₁)
          component service₂ characteristic₂ ble2902₂)
        component).handler_for_component component.object_id =
      some (some ⟨component.object_id,
        ⟨service₂, characteristic₂, ble2902₂⟩⟩) := by
  have hinfo : mapGet (register_component
      (register_component st component service₁ characteristic₁ ble2902₁)
      component service₂ characteristic₂ ble2902₂).info_for_component
      component.object_id = some ⟨service₂, characteristic₂, ble2902₂⟩ := by
    simp [register_component, mapGet_mapPut_self]
  simp [setup_ble_service_for_component, hinfo, mapGet_mapPut_self]

/-- Claim C8: a second controller instantiation attempt while a first
instance is registered is logged as an error and ignored:
`global_ble_controller` keeps referring to the first instance, and the
first instance's state (descriptor registry, handler registry,
observer lists, deferred queue) is unchanged. -/
theorem second_controller_attempt_ignored
    (stored : Option Nat) (components : List Nameable)
    (g : SystemState) (c c₀ : Nat)
    (hglobal : g.global_ble_controller = some c₀) (hne : c ≠ c₀) :
    (setupSystem stored components g c).global_ble_controller = some c₀ ∧
    (setupSystem stored components g c).controllers c₀ = g.controllers c₀ ∧
    (setupSystem stored components g c).errors =
      g.errors ++ ["Already have an instance of the BLE controller"] := by
  refine ⟨?_, ?_, ?_⟩
  · simp [setupSystem, hglobal]
  · simp [setupSystem, Ne.symm hne]
  · simp [setupSystem, hglobal]

theorem second_controller_attempt_ignored_witness :
    (setupSystem none []
        ⟨some 0, fun _ => initControllerState, []⟩ 1).global_ble_controller =
      some 0 ∧
    (setupSystem none []
        ⟨some 0, fun _ => initControllerState, []⟩ 1).controllers 0 =
      (⟨some 0, fun _ => initControllerState, []⟩ : SystemState).controllers 0 ∧
    (setupSystem none []
        ⟨some 0, fun _ => initControllerState, []⟩ 1).errors =
      [] ++ ["Already have an instance of the BLE controller"] :=
  second_controller_attempt_ignored none []
    ⟨some 0, fun _ => initControllerState, []⟩ 1 0 rfl (by decide)

/-- Claim C9: when loading the persisted operating mode fails (no
stored value), `initialize_ble_mode` falls back to `BLE_ONLY` as the
in-memory mode and writes nothing to persistence. -/
theorem init_ble_mode_defaults_to_ble_only (st : ControllerState) :
    (init_ble_mode st none).ble_mode = BLE_ONLY ∧
    (init_ble_mode st none).saved_modes = st.saved_modes :=
  ⟨rfl, rfl⟩

theorem passKeyChars_small (pass_key : Nat)
    (h : pass_key % 2 ^ 32 < 2 ^ 31) :
    passKeyChars pass_key =
      (leftPad 6 '0' (decRepr (pass_key % 2 ^ 32))).take 6 := by
  have hneg : ¬ ((pass_key % 2 ^ 32 : Nat) : Int) < 0 :=
    Int.not_lt.mpr (Int.natCast_nonneg _)
  simp only [passKeyChars, int32_of_uint32, fmt06d]
  rw [if_pos h, if_neg hneg, Int.toNat_natCast]

theorem passKeyChars_large (pass_key : Nat)
    (h : 2 ^ 31 ≤ pass_key % 2 ^ 32) :
    passKeyChars pass_key =
      ('-' :: leftPad 5 '0' (decRepr (2 ^ 32 - pass_key % 2 ^ 32))).take 6 := by
  have hmod : pass_key % 2 ^ 32 < 2 ^ 32 := Nat.mod_lt _ (by norm_num)
  have hcast : ((pass_key % 2 ^ 32 : Nat) : Int) < 2 ^ 32 := by
    exact_mod_cast hmod
  have hneg : ((pass_key % 2 ^ 32 : Nat) : Int) - 2 ^ 32 < 0 := by omega
  have htn : (-(((pass_key % 2 ^ 32 : Nat) : Int) - 2 ^ 32)).toNat =
      2 ^ 32 - pass_key % 2 ^ 32 := by omega
  simp only [passKeyChars, int32_of_uint32, fmt06d]
  rw [if_neg (Nat.not_lt.mpr h), if_pos hneg, htn]

/-- Claim C10 (counterexample): the claim that every passkey with 7 or
more decimal digits is truncated to its first 6 digit characters fails
at `pass_key = 4294967295` (10 digits): the `%d` conversion
reinterprets it as the 32-bit two's-complement value `-1`, so the code
produces "-00001", not the first six digits "429496". -/
theorem passkey_overflow_not_first_six_digits :
    passKeyString 4294967295 = "-00001" ∧
    String.mk ((decRepr 4294967295).take 6) = "429496" ∧
    passKeyString 4294967295 ≠ String.mk ((decRepr 4294967295).take 6) :=
  ⟨by decide, by decide, by decide⟩

/-- Claim C10 (amended): for every 32-bit passkey the delivered string
has length exactly 6; values below 10^6 are rendered zero-padded with
no truncation; values with 7 or more digits that are below 2^31 are
truncated to their first 6 digit characters by the 7-byte buffer;
values of 2^31 and above are reinterpreted as negative by the `%d`
conversion and rendered starting with a minus sign (still truncated to
6 characters). -/
theorem passkey_string_always_six_chars (pass_key : Nat) :
    (passKeyString pass_key).length = 6 ∧
    (pass_key % 2 ^ 32 < 1000000 →
      passKeyChars pass_key =
        List.replicate (6 - (decRepr (pass_key % 2 ^ 32)).length) '0' ++
          decRepr (pass_key % 2 ^ 32)) ∧
    (1000000 ≤ pass_key % 2 ^ 32 → pass_key % 2 ^ 32 < 2 ^ 31 →
      passKeyChars pass_key = (decRepr (pass_key % 2 ^ 32)).take 6) ∧
    (2 ^ 31 ≤ pass_key % 2 ^ 32 →
      ∃ ds, passKeyChars pass_key = '-' :: ds) := by
  have hlen : (passKeyString pass_key).length = (passKeyChars pass_key).length :=
    rfl
  refine ⟨?_, ?_, ?_, ?_⟩
  · rw [hlen]
    by_cases hsm : pass_key % 2 ^ 32 < 2 ^ 31
    · rw [passKeyChars_small pass_key hsm]
      simp only [leftPad, List.length_take, List.length_append,
        List.length_replicate]
      omega
    · rw [passKeyChars_large pass_key (Nat.not_lt.mp hsm)]
      simp only [leftPad, List.length_take, List.length_cons,
        List.length_append, List.length_replicate]
      omega
  · intro hsmall
    have hsm : pass_key % 2 ^ 32 < 2 ^ 31 := by
      have : (1000000 : Nat) < 2 ^ 31 := by norm_num
      omega
    rw [passKeyChars_small pass_key hsm]
    have hdigits : (decRepr (pass_key % 2 ^ 32)).length ≤ 6 := by
      apply decRepr_length_le 6 (by norm_num)
      have : (10 : Nat) ^ 6 = 1000000 := by norm_num
      omega
    have h6 : (leftPad 6 '0' (decRepr (pass_key % 2 ^ 32))).length ≤ 6 := by
      simp only [leftPad, List.length_append, List.length_replicate]
      omega
    rw [List.take_of_length_le h6]
    rfl
  · intro hbig hsm
    rw [passKeyChars_small pass_key hsm]
    have h10 : (10 : Nat) ^ 6 = 1000000 := by norm_num
    have hdigits : 7 ≤ (decRepr (pass_key % 2 ^ 32)).length := by
      have := le_decRepr_length 6 (pass_key % 2 ^ 32) (by omega)
      omega
    simp only [leftPad, Nat.sub_eq_zero_of_le (by omega :
      (6 : Nat) ≤ (decRepr (pass_key % 2 ^ 32)).length),
      List.replicate_zero, List.nil_append]
  · intro hbig
    rw [passKeyChars_large pass_key hbig]
    exact ⟨(leftPad 5 '0' (decRepr (2 ^ 32 - pass_key % 2 ^ 32))).take 5,
      List.take_succ_cons⟩

theorem passkey_string_always_six_chars_witness :
    (passKeyString 0).length = 6 ∧
    passKeyChars 42 =
      List.replicate (6 - (decRepr (42 % 2 ^ 32)).length) '0' ++
        decRepr (42 % 2 ^ 32) ∧
    passKeyChars 2147483647 = (decRepr (2147483647 % 2 ^ 32)).take 6 ∧
    (∃ ds, passKeyChars 2147483648 = '-' :: ds) :=
  ⟨(passkey_string_always_six_chars 0).1,
    (passkey_string_always_six_chars 42).2.1 (by decide),
    (passkey_string_always_six_chars 2147483647).2.2.1 (by decide) (by decide),
    (passkey_string_always_six_chars 2147483648).2.2.2 (by decide)⟩
